import Mathlib

/-!
Verification of the deployment-orchestration engine of the
`grafana-ai-agent-platform` repository: a shallow embedding of the
value-composition, plan-generation, cluster-analysis and step-execution
code (Go) into Lean 4, with theorems checking the specification's claims.

Sources embedded:
* `backend/internal/services/helm_service.go` (value merging, plan creation)
* `backend/internal/services/deployment_executor.go` (step execution)
* the cluster analyzer service (`AnalyzeCluster` and helpers)
* the data model from `backend/internal/agent/agent.go`
-/

set_option autoImplicit false

namespace GrafanaAgent

/-! ## Values documents (`map[string]interface{}`)

Go represents Helm values as untyped nested `map[string]interface{}`.
We embed such a document as an association list of string keys to tagged
values.  Go map iteration order is unspecified; the association list
fixes an order, but all claims are stated through key lookup, which is
order-independent for maps with distinct keys. -/

/-- A dynamic value, as stored in a Go `map[string]interface{}`. -/
inductive GoValue where
  | vStr (s : String)
  | vInt (n : Int)
  | vBool (b : Bool)
  | vMap (m : List (String × GoValue))
deriving Repr

/-- A values document: Go `map[string]interface{}`. -/
abbrev VMap := List (String × GoValue)

/-- Go `m[k]` lookup: the value bound to `k`, if any. -/
def lookupKey : VMap → String → Option GoValue
  | [], _ => none
  | (k', v) :: rest, k => if k' = k then some v else lookupKey rest k

/-- Go `m[k] = v` assignment: replace the binding of `k`, or add one. -/
def setKey : VMap → String → GoValue → VMap
  | [], k, v => [(k, v)]
  | (k', v') :: rest, k, v =>
      if k' = k then (k, v) :: rest else (k', v') :: setKey rest k v

/-- Is the value a mapping (`map[string]interface{}`)? -/
def GoValue.isMap : GoValue → Bool
  | .vMap _ => true
  | _ => false

/-- Is the optional value present and a mapping? -/
def optIsMap : Option GoValue → Bool
  | some v => v.isMap
  | none => false

/-- Embeds `HelmService.mergeValues` (helm_service.go:254-268): for every key of
`source`, if both the existing target value and the source value are
maps, merge recursively; otherwise the source value overwrites. -/
def mergeValues : VMap → VMap → VMap
  | target, [] => target
  | target, (key, GoValue.vMap sm) :: rest =>
      (match lookupKey target key with
       | some (GoValue.vMap tm) =>
           mergeValues (setKey target key (GoValue.vMap (mergeValues tm sm))) rest
       | _ => mergeValues (setKey target key (GoValue.vMap sm)) rest)
  | target, (key, value) :: rest => mergeValues (setKey target key value) rest
termination_by _ source => sizeOf source

/-- Does `hay` start with `needle` (on character lists)? -/
def charsStartWith : List Char → List Char → Bool
  | [], _ => true
  | _ :: _, [] => false
  | a :: as, b :: bs => a = b && charsStartWith as bs

/-- Does `hay` contain `needle` as a contiguous run (on character lists)? -/
def charsContain : List Char → List Char → Bool
  | [], needle => needle.isEmpty
  | a :: as, needle => charsStartWith needle (a :: as) || charsContain as needle

/-- Go `strings.Contains hay needle`. -/
def containsSub (hay needle : String) : Bool :=
  charsContain hay.toList needle.toList

/-! ## Data model (`backend/internal/agent/agent.go`)

Resource quantities (`resource.Quantity`) are embedded as their integer
values (`Quantity.Value()`); the Go structs store their canonical string
rendering, which for the plain integers of this embedding is the decimal
numeral. -/

/-- Embeds `agent.ClusterResources`. -/
structure ClusterResources where
  totalCPU : String
  totalMemory : String
  totalStorage : String
  availableCPU : String
  availableMemory : String
  availableStorage : String
deriving Repr, DecidableEq

/-- Embeds `agent.ClusterCapabilities`. -/
structure ClusterCapabilities where
  helmInstalled : Bool
  ingressAvailable : Bool
  loadBalancer : Bool
  persistentVolume : Bool
  rbacEnabled : Bool
  networkPolicy : Bool
deriving Repr, DecidableEq

/-- Embeds `agent.SecurityInfo`. -/
structure SecurityInfo where
  rbacEnabled : Bool
  podSecurityPolicy : Bool
  networkPolicy : Bool
  secretsEnabled : Bool
deriving Repr, DecidableEq

/-- Embeds `agent.ResourceInfo`: capacity/allocatable/used quantities and an
integer percentage. -/
structure ResourceInfo where
  capacity : Int
  allocatable : Int
  used : Int
  percentage : Int
deriving Repr, DecidableEq

/-- Embeds `agent.NodeInfo`. -/
structure NodeInfo where
  name : String
  role : String
  status : String
  cpu : ResourceInfo
  memory : ResourceInfo
  storage : ResourceInfo
  labels : List (String × String)
  annotations : List (String × String)
deriving Repr, DecidableEq

/-- Embeds `agent.ClusterAnalysis`. -/
structure ClusterAnalysis where
  clusterName : String
  version : String
  nodes : List NodeInfo
  resources : ClusterResources
  capabilities : ClusterCapabilities
  storageClasses : List String
  networkPolicy : String
  security : SecurityInfo
deriving Repr

/-- Embeds `agent.HelmChart`. -/
structure HelmChart where
  name : String
  repository : String
  version : String
  values : VMap
  description : String
  url : String
deriving Repr

/-- Embeds `agent.DeploymentStep` at plan-creation time (execution-time fields
`Logs`/`StartTime`/`EndTime`/`Error` live on the execution record). -/
structure DeploymentStep where
  id : String
  name : String
  description : String
  chart : Option HelmChart
  command : String
  status : String
deriving Repr

/-- Embeds `agent.ResourceImpact`. -/
structure ResourceImpact where
  cpu : String
  memory : String
  storage : String
  nodes : Int
deriving Repr, DecidableEq

/-- Embeds `agent.DeploymentPlan`. -/
structure DeploymentPlan where
  id : String
  name : String
  description : String
  charts : List HelmChart
  steps : List DeploymentStep
  estimatedTime : String
  resourceImpact : ResourceImpact
  prerequisites : List String
  risks : List String
deriving Repr

/-! ## Value composition (`helm_service.go:122-268`) -/

/-- The fixed resource block of `setResourceLimits` (helm_service.go:170-186). -/
def resourceLimitsConfig : VMap :=
  [("resources", .vMap
      [("limits", .vMap [("cpu", .vStr "500m"), ("memory", .vStr "512Mi")]),
       ("requests", .vMap [("cpu", .vStr "100m"), ("memory", .vStr "128Mi")])])]

/-- Embeds `HelmService.setResourceLimits`. -/
def setResourceLimits (values : VMap) : VMap :=
  mergeValues values resourceLimitsConfig

/-- Embeds `HelmService.configureStorage` (helm_service.go:189-199): bind the
first available storage class. -/
def configureStorage (values : VMap) (storageClasses : List String) : VMap :=
  match storageClasses with
  | [] => values
  | sc :: _ =>
      mergeValues values [("persistence", .vMap [("storageClass", .vStr sc)])]

/-- Embeds `HelmService.configureIngress` (helm_service.go:202-212). -/
def configureIngress (values : VMap) : VMap :=
  mergeValues values
    [("ingress", .vMap
        [("enabled", .vBool true),
         ("annotations", .vMap [("kubernetes.io/ingress.class", .vStr "nginx")])])]

/-- Embeds `HelmService.configureRBAC` (helm_service.go:215-222). -/
def configureRBAC (values : VMap) : VMap :=
  mergeValues values [("rbac", .vMap [("create", .vBool true)])]

/-- Embeds `HelmService.customizeForCluster` (helm_service.go:146-167). -/
def customizeForCluster (values : VMap) (cluster : ClusterAnalysis) : VMap :=
  let v :=
    if cluster.resources.availableCPU ≠ "" ∧ cluster.resources.availableMemory ≠ "" then
      setResourceLimits values
    else values
  let v :=
    if cluster.storageClasses.length > 0 then configureStorage v cluster.storageClasses else v
  let v := if cluster.capabilities.ingressAvailable then configureIngress v else v
  if cluster.security.rbacEnabled then configureRBAC v else v

/-- Embeds `HelmService.applyUserRequirements` (helm_service.go:225-229); `none`
models a nil requirements map. -/
def applyUserRequirements (values : VMap) (requirements : Option VMap) : VMap :=
  match requirements with
  | some reqs => mergeValues values reqs
  | none => values

/-- The security block of `applyBestPractices` (helm_service.go:234-239). -/
def securityBestPractices : VMap :=
  [("securityContext", .vMap [("runAsNonRoot", .vBool true), ("runAsUser", .vInt 1000)])]

/-- The monitoring block of `applyBestPractices` (helm_service.go:244-248). -/
def monitoringBestPractices : VMap :=
  [("serviceMonitor", .vMap [("enabled", .vBool true)])]

/-- Embeds `HelmService.applyBestPractices` (helm_service.go:232-251). -/
def applyBestPractices (values : VMap) (chartName : String) : VMap :=
  let v := mergeValues values securityBestPractices
  if containsSub chartName.toLower "prometheus" || containsSub chartName.toLower "grafana" then
    mergeValues v monitoringBestPractices
  else v

/-- Embeds `HelmService.GenerateValues` (helm_service.go:122-143): chart
defaults, then cluster customization, then user requirements, then best
practices.  The Go error return is always nil. -/
def generateValues (chart : HelmChart) (cluster : ClusterAnalysis)
    (requirements : Option VMap) : VMap :=
  applyBestPractices
    (applyUserRequirements (customizeForCluster chart.values cluster) requirements)
    chart.name

/-! ## Plan creation (`helm_service.go:270-339`) -/

/-- Embeds `ChartSearchResult` from Artifact Hub (helm_service.go:29-44);
fields not consumed by plan creation (keywords, maintainers, provider,
deprecated flag) are omitted. -/
structure ChartSearchResult where
  id : String
  name : String
  repository : String
  version : String
  description : String
  url : String
deriving Repr, DecidableEq

/-- The outcome of a Go call: a value, an error return, or a runtime
panic. -/
inductive Outcome (α : Type) where
  | ok (a : α)
  | error (msg : String)
  | panics
deriving Repr

/-- Project an `Outcome` to its success value, if any. -/
def Outcome.toOption {α : Type} : Outcome α → Option α
  | .ok a => some a
  | _ => none

/-- The Go slice expression `l[:n]`.  It panics when `n` exceeds the
slice capacity; the embedding takes the capacity to be the length — the
only bound the decoded search response guarantees.  (When the JSON
decoder happens to leave spare capacity the expression instead yields
zero-valued phantom elements past the decoded length; either behavior
breaks a `[:3]` slice of a shorter result.) -/
def goSliceTo {α : Type} (l : List α) (n : Nat) : Option (List α) :=
  if n ≤ l.length then some (l.take n) else none

/-- The `agent.HelmChart` built from one search result
(helm_service.go:310-317), before values generation. -/
def chartFromSearch (c : ChartSearchResult) : HelmChart :=
  { name := c.name, repository := c.repository, version := c.version,
    values := [], description := c.description, url := c.url }

/-- The chart/step loop of `CreateDeploymentPlan`
(helm_service.go:309-336), carrying the running index `i` used in the
step identifier `step-(i+1)`. -/
def planStepsAux (cluster : ClusterAnalysis) :
    Nat → List ChartSearchResult → List HelmChart × List DeploymentStep
  | _, [] => ([], [])
  | i, c :: rest =>
    let base := chartFromSearch c
    let chart := { base with values := generateValues base cluster none }
    let step : DeploymentStep :=
      { id := "step-" ++ toString (i + 1),
        name := "Deploy " ++ c.name,
        description := "Deploy " ++ c.name ++ " chart from " ++ c.repository ++ " repository",
        chart := some chart, command := "", status := "pending" }
    let (cs, ss) := planStepsAux cluster (i + 1) rest
    (chart :: cs, step :: ss)

/-- Embeds `HelmService.CreateDeploymentPlan` (helm_service.go:271-339).  The
registry search response is passed in as `charts` (the HTTP call is
external); `now` is the Unix-second timestamp used in the plan id. -/
def createDeploymentPlan (stackName : String) (charts : List ChartSearchResult)
    (cluster : ClusterAnalysis) (now : Nat) : Outcome DeploymentPlan :=
  if charts.length = 0 then
    .error ("no charts found for stack: " ++ stackName)
  else
    match goSliceTo charts 3 with
    | none => .panics
    | some top =>
      let (planCharts, planSteps) := planStepsAux cluster 0 top
      .ok
        { id := "plan-" ++ stackName ++ "-" ++ toString now,
          name := "Deploy " ++ stackName ++ " Stack",
          description := "Deployment plan for " ++ stackName ++ " stack",
          charts := planCharts,
          steps := planSteps,
          estimatedTime := "10-15 minutes",
          resourceImpact := { cpu := "500m", memory := "1Gi", storage := "10Gi", nodes := 1 },
          prerequisites :=
            ["Kubernetes cluster with sufficient resources",
             "kubectl configured and accessible",
             "Helm 3.x installed (optional, can be installed automatically)"],
          risks :=
            ["Resource consumption may impact other workloads",
             "Configuration changes may affect existing services",
             "Rollback may be required if issues occur"] }

/-! ## Cluster analysis (`ClusterAnalyzerService`)

`AnalyzeCluster` and its helpers.  Each Kubernetes API call is embedded
as a pre-recorded result in `K8sApi`; the Go code issues the cluster-role
and network-policy list calls at several distinct sites, so each call
site has its own field. -/

/-- One entry of a node's `Status.Conditions`; only the `Type` field is
read by the analyzer. -/
structure NodeCondition where
  condType : String
deriving Repr, DecidableEq

/-- A `corev1.Node`, restricted to the fields the analyzer reads.
Capacity/allocatable quantities are `Option Int`s because the Go code
nil-checks the quantity pointers. -/
structure K8sNode where
  name : String
  labels : List (String × String)
  annotations : List (String × String)
  conditions : List NodeCondition
  capacityCPU : Option Int
  allocatableCPU : Option Int
  capacityMemory : Option Int
  allocatableMemory : Option Int
  capacityStorage : Option Int
  allocatableStorage : Option Int
deriving Repr, DecidableEq

/-- Embeds `ClusterAnalyzerService.analyzeResource`: used is capacity minus
allocatable; percentage is `allocatable*100/capacity` in Go integer
(truncating) division, 0 unless capacity is positive; nil pointers give
the all-zero record. -/
def analyzeResource (capacity allocatable : Option Int) : ResourceInfo :=
  match capacity, allocatable with
  | some cap, some alloc =>
      { capacity := cap, allocatable := alloc, used := cap - alloc,
        percentage := if cap > 0 then Int.tdiv (alloc * 100) cap else 0 }
  | _, _ => { capacity := 0, allocatable := 0, used := 0, percentage := 0 }

/-- Membership test on a Go label map. -/
def hasLabel (labels : List (String × String)) (k : String) : Bool :=
  labels.any (fun p => p.1 == k)

/-- The role logic of `analyzeNodes` (control-plane / master / worker). -/
def nodeRole (labels : List (String × String)) : String :=
  if hasLabel labels "node-role.kubernetes.io/control-plane" then "control-plane"
  else if hasLabel labels "node-role.kubernetes.io/master" then "master"
  else "worker"

/-- One iteration of `analyzeNodes`: the status is
`node.Status.Conditions[len(conditions)-1].Type`, which panics (hence
`none`) on an empty conditions list. -/
def analyzeNode (node : K8sNode) : Option NodeInfo :=
  match node.conditions.getLast? with
  | none => none
  | some cond => some
      { name := node.name, role := nodeRole node.labels, status := cond.condType,
        cpu := analyzeResource node.capacityCPU node.allocatableCPU,
        memory := analyzeResource node.capacityMemory node.allocatableMemory,
        storage := analyzeResource node.capacityStorage node.allocatableStorage,
        labels := node.labels, annotations := node.annotations }

/-- Embeds `ClusterAnalyzerService.analyzeNodes`; `none` models the
out-of-bounds panic on a node without status conditions. -/
def analyzeNodes : List K8sNode → Option (List NodeInfo)
  | [] => some []
  | n :: rest =>
    match analyzeNode n, analyzeNodes rest with
    | some i, some is => some (i :: is)
    | _, _ => none

/-- Sum an optional per-node quantity over all nodes, skipping nil
pointers, as the `analyzeClusterResources` loop does. -/
def sumQuantity (f : K8sNode → Option Int) (nodes : List K8sNode) : Int :=
  nodes.foldl (fun acc n => acc + (f n).getD 0) 0

/-- Embeds `ClusterAnalyzerService.analyzeClusterResources`: cluster-wide sums
of capacity and allocatable, rendered as strings. -/
def analyzeClusterResources (nodes : List K8sNode) : ClusterResources :=
  { totalCPU := toString (sumQuantity (·.capacityCPU) nodes),
    totalMemory := toString (sumQuantity (·.capacityMemory) nodes),
    totalStorage := toString (sumQuantity (·.capacityStorage) nodes),
    availableCPU := toString (sumQuantity (·.allocatableCPU) nodes),
    availableMemory := toString (sumQuantity (·.allocatableMemory) nodes),
    availableStorage := toString (sumQuantity (·.allocatableStorage) nodes) }

/-- The pre-recorded results of every Kubernetes API call `AnalyzeCluster`
issues, one field per call site. -/
structure K8sApi where
  /-- kubeconfig parsing plus clientset creation. -/
  connect : Except String Unit
  /-- Embeds `Discovery().ServerVersion()`; the payload is `GitVersion`. -/
  serverVersion : Except String String
  nodesList : Except String (List K8sNode)
  /-- storage-class list; the analyzer only keeps the names. -/
  storageClassesList : Except String (List String)
  namespacesList : Except String (List String)
  /-- Embeds `Namespaces().Get("kube-system")`. -/
  kubeSystemNamespace : Except String Unit
  /-- secret names in kube-system. -/
  kubeSystemSecrets : Except String (List String)
  ingressesList : Except String (List String)
  /-- Embeds `Spec.Type` of every service. -/
  servicesList : Except String (List String)
  persistentVolumesList : Except String (List String)
  clusterRolesCap : Except String Unit
  networkPoliciesCap : Except String Unit
  clusterRolesSec : Except String Unit
  podSecurityPoliciesSec : Except String Unit
  networkPoliciesSec : Except String Unit
  allSecretsSec : Except String Unit
  networkPoliciesDetect : Except String Unit

/-- Did the call succeed? -/
def okB {α : Type} : Except String α → Bool
  | .ok _ => true
  | .error _ => false

/-- The helm/tiller secret-name scan of `analyzeClusterCapabilities`. -/
def anyNameHelmOrTiller (names : List String) : Bool :=
  names.any (fun n => containsSub n "helm" || containsSub n "tiller")

/-- Embeds `ClusterAnalyzerService.analyzeClusterCapabilities`: starts from the
all-false record and flips each flag from its own probe; a probe error
leaves its flag false. -/
def analyzeClusterCapabilities (api : K8sApi) : ClusterCapabilities :=
  let c : ClusterCapabilities :=
    { helmInstalled := false, ingressAvailable := false, loadBalancer := false,
      persistentVolume := false, rbacEnabled := false, networkPolicy := false }
  let c :=
    match api.kubeSystemNamespace with
    | .ok _ =>
        (match api.kubeSystemSecrets with
         | .ok secrets =>
             if anyNameHelmOrTiller secrets then { c with helmInstalled := true } else c
         | .error _ => c)
    | .error _ => c
  let c :=
    match api.ingressesList with
    | .ok items => if items.length > 0 then { c with ingressAvailable := true } else c
    | .error _ => c
  let c :=
    match api.servicesList with
    | .ok types => if types.any (· == "LoadBalancer") then { c with loadBalancer := true } else c
    | .error _ => c
  let c :=
    match api.persistentVolumesList with
    | .ok items => if items.length > 0 then { c with persistentVolume := true } else c
    | .error _ => c
  let c := match api.clusterRolesCap with | .ok _ => { c with rbacEnabled := true } | .error _ => c
  match api.networkPoliciesCap with | .ok _ => { c with networkPolicy := true } | .error _ => c

/-- Embeds `ClusterAnalyzerService.analyzeSecurity`: four independent probes,
each flag true exactly when its own list call succeeds. -/
def analyzeSecurity (api : K8sApi) : SecurityInfo :=
  { rbacEnabled := okB api.clusterRolesSec,
    podSecurityPolicy := okB api.podSecurityPoliciesSec,
    networkPolicy := okB api.networkPoliciesSec,
    secretsEnabled := okB api.allSecretsSec }

/-- Embeds `ClusterAnalyzerService.detectNetworkPolicy`. -/
def detectNetworkPolicy (api : K8sApi) : String :=
  if okB api.networkPoliciesDetect then "supported" else "not-supported"

/-- Embeds `ClusterAnalyzerService.AnalyzeCluster`: connection, server version,
node listing, storage-class listing and namespace listing failures
return errors; the capability/security probes never do.  `Outcome.panics`
models the `analyzeNodes` index panic. -/
def analyzeCluster (api : K8sApi) : Outcome ClusterAnalysis :=
  match api.connect with
  | .error e => .error ("failed to create kubeconfig: " ++ e)
  | .ok _ =>
  match api.serverVersion with
  | .error e => .error ("failed to get server version: " ++ e)
  | .ok version =>
  match api.nodesList with
  | .error e => .error ("failed to list nodes: " ++ e)
  | .ok nodes =>
  match api.storageClassesList with
  | .error e => .error ("failed to list storage classes: " ++ e)
  | .ok storageClassNames =>
  match api.namespacesList with
  | .error e => .error ("failed to list namespaces: " ++ e)
  | .ok _ =>
  match analyzeNodes nodes with
  | none => .panics
  | some nodeInfos =>
      .ok
        { clusterName := "analyzed-cluster",
          version := version,
          nodes := nodeInfos,
          resources := analyzeClusterResources nodes,
          capabilities := analyzeClusterCapabilities api,
          storageClasses := storageClassNames,
          networkPolicy := detectNetworkPolicy api,
          security := analyzeSecurity api }

/-! ## Step execution (`deployment_executor.go`)

`ExecuteDeployment` runs the plan's steps sequentially.  External
process effects (checking/installing the helm binary, registering a
chart repository, running a raw command, installing a chart) are
embedded as pre-recorded results in `ExecEnv`, and every invocation is
logged as an `ExecAction` so the theorems can talk about what was and
was not executed.  The executor has no uninstall or rollback operation,
so no such action exists. -/

/-- One external effect of `executeStep`. -/
inductive ExecAction where
  /-- Embeds `exec.LookPath("helm")` in `ensureHelmInstalled`. -/
  | lookPathHelm
  /-- the download/extract/move bootstrap of `installHelm`. -/
  | installHelmTool
  /-- Embeds `addHelmRepository` for the given repository URL. -/
  | addRepo (url : String)
  /-- Embeds `executeCommand` on the step's raw command. -/
  | runCommand (cmd : String)
  /-- Embeds `deployHelmChart` (`helm install`) for the named chart. -/
  | installChart (chartName : String)
deriving Repr, DecidableEq

/-- Pre-recorded results of the executor's external effects.  For the
fallible operations, `none` is success and `some e` the error text. -/
structure ExecEnv where
  /-- is the helm binary already on the PATH? -/
  helmAvailable : Bool
  /-- does the one-shot bootstrap install succeed? -/
  helmInstallOk : Bool
  /-- result of `addHelmRepository` per repository URL. -/
  repoAdd : String → Option String
  /-- result of `executeCommand` per raw command. -/
  commandRun : String → Option String
  /-- result of `deployHelmChart` per chart name. -/
  chartInstall : String → Option String

/-- Embeds `ensureHelmInstalled` (deployment_executor.go:121-129): succeed at
once if helm is on the PATH, otherwise attempt the bootstrap install. -/
def ensureHelmInstalled (env : ExecEnv) : List ExecAction × Option String :=
  if env.helmAvailable then ([.lookPathHelm], none)
  else if env.helmInstallOk then ([.lookPathHelm, .installHelmTool], none)
  else ([.lookPathHelm, .installHelmTool], some "failed to install helm")

/-- Embeds `executeStep` (deployment_executor.go:85-118): helm check first,
then repository registration when a chart is bound, then the raw
command if one is set, otherwise the chart install.  Returns the
actions performed and the error result. -/
def executeStep (env : ExecEnv) (step : DeploymentStep) : List ExecAction × Option String :=
  match ensureHelmInstalled env with
  | (acts0, some e) => (acts0, some ("helm not available: " ++ e))
  | (acts0, none) =>
    let repoActs : List ExecAction :=
      match step.chart with
      | some chart => [.addRepo chart.repository]
      | none => []
    let repoErr : Option String :=
      match step.chart with
      | some chart => (env.repoAdd chart.repository).map ("failed to add helm repository: " ++ ·)
      | none => none
    match repoErr with
    | some e => (acts0 ++ repoActs, some e)
    | none =>
      if step.command ≠ "" then
        (acts0 ++ repoActs ++ [.runCommand step.command],
         (env.commandRun step.command).map ("command execution failed: " ++ ·))
      else
        match step.chart with
        | some chart =>
            (acts0 ++ repoActs ++ [.installChart chart.name],
             (env.chartInstall chart.name).map ("helm deployment failed: " ++ ·))
        | none => (acts0 ++ repoActs, none)

/-- The error result of `executeStep`, as seen by the deployment loop. -/
def stepOutcome (env : ExecEnv) (step : DeploymentStep) : Option String :=
  (executeStep env step).2

/-- Embeds `agent.DeploymentStepExecution`, restricted to the fields the
claims are about (timestamps and logs are carried by the Go struct but
not consulted by any claim). -/
structure StepExecution where
  stepID : String
  status : String
  error : String
deriving Repr, DecidableEq

/-- Embeds `agent.DeploymentExecution`, same restriction. -/
structure ExecutionRecord where
  id : String
  planID : String
  status : String
  steps : List StepExecution
  error : String
deriving Repr, DecidableEq

/-- The result of the sequential step loop: the final step records, the
overall status and error, the full action log tagged with the 0-based
step index, and the indices of the steps whose `executeStep` actually
ran. -/
structure RunResult where
  steps : List StepExecution
  status : String
  error : String
  actions : List (Nat × ExecAction)
  invoked : List Nat
deriving Repr

/-- The `for i := range execution.Steps` loop of `ExecuteDeployment`
(deployment_executor.go:49-79): run each step; on the first error mark
it failed, leave the rest pending and stop; otherwise mark it completed
and continue.  `i` is the 0-based index of the first remaining step. -/
def runSteps (env : ExecEnv) : Nat → List DeploymentStep → RunResult
  | _, [] => { steps := [], status := "completed", error := "", actions := [], invoked := [] }
  | i, step :: rest =>
    match executeStep env step with
    | (acts, some e) =>
        { steps :=
            { stepID := step.id, status := "failed", error := e } ::
              rest.map (fun s => { stepID := s.id, status := "pending", error := "" }),
          status := "failed",
          error := "Step " ++ toString (i + 1) ++ " failed: " ++ e,
          actions := acts.map (fun a => (i, a)),
          invoked := [i] }
    | (acts, none) =>
        let r := runSteps env (i + 1) rest
        { steps := { stepID := step.id, status := "completed", error := "" } :: r.steps,
          status := r.status,
          error := r.error,
          actions := acts.map (fun a => (i, a)) ++ r.actions,
          invoked := i :: r.invoked }

/-- Embeds `DeploymentExecutorService.ExecuteDeployment`
(deployment_executor.go:27-82): returns the final execution record plus
the executor's action log and the invoked step indices.  `now` is the
Unix-second timestamp of the execution id. -/
def executeDeployment (env : ExecEnv) (plan : DeploymentPlan) (now : Nat) :
    ExecutionRecord × List (Nat × ExecAction) × List Nat :=
  let r := runSteps env 0 plan.steps
  ({ id := "exec-" ++ toString now, planID := plan.id, status := r.status,
     steps := r.steps, error := r.error }, r.actions, r.invoked)

/-! ### Status-mutation trace

The Go code mutates one shared execution record; `executionTrace` lists
that record's successive states (step statuses and overall status), one
entry per mutation point of `ExecuteDeployment`: the initial record
(all steps pending, execution running), each step's switch to running,
each step's terminal switch (completed, or failed together with the
overall failure), and the final overall completion. -/

/-- A snapshot of the execution record's statuses. -/
structure Snapshot where
  stepStatuses : List String
  overall : String
deriving Repr, DecidableEq

/-- The mutation trace of the step loop, given the statuses `done` of
the already-finished steps and the outcomes of the remaining steps. -/
def traceAux : List String → List (Option String) → List Snapshot
  | done, [] => [⟨done, "completed"⟩]
  | done, o :: rest =>
    let running : Snapshot :=
      ⟨done ++ "running" :: List.replicate rest.length "pending", "running"⟩
    match o with
    | some _ => [running, ⟨done ++ "failed" :: List.replicate rest.length "pending", "failed"⟩]
    | none => running :: traceAux (done ++ ["completed"]) rest

/-- The successive status states of one `ExecuteDeployment` run. -/
def executionTrace (env : ExecEnv) (plan : DeploymentPlan) : List Snapshot :=
  ⟨List.replicate plan.steps.length "pending", "running"⟩ ::
    traceAux [] (plan.steps.map (stepOutcome env))

/-- A legal move of one step's status: stay, or advance along
`pending → running → completed|failed`. -/
def StepEdge (a b : String) : Prop :=
  a = b ∨ (a = "pending" ∧ b = "running") ∨
    (a = "running" ∧ (b = "completed" ∨ b = "failed"))

/-- A legal move of the overall status: stay, or `running → completed|failed`. -/
def OverallEdge (a b : String) : Prop :=
  a = b ∨ (a = "running" ∧ (b = "completed" ∨ b = "failed"))

/-- A legal transition of the whole record: every step moves legally,
position by position, and so does the overall status. -/
def SnapshotEdge (s t : Snapshot) : Prop :=
  List.Forall₂ StepEdge s.stepStatuses t.stepStatuses ∧ OverallEdge s.overall t.overall

/-! ## Concrete fixtures used by counterexamples and witnesses -/

/-- A cluster analysis with no discovered resources, storage classes or
capabilities: `customizeForCluster` on it is the identity. -/
def emptyAnalysis : ClusterAnalysis :=
  { clusterName := "c", version := "v",
    nodes := [],
    resources := { totalCPU := "", totalMemory := "", totalStorage := "",
                   availableCPU := "", availableMemory := "", availableStorage := "" },
    capabilities := { helmInstalled := false, ingressAvailable := false, loadBalancer := false,
                      persistentVolume := false, rbacEnabled := false, networkPolicy := false },
    storageClasses := [], networkPolicy := "not-supported",
    security := { rbacEnabled := false, podSecurityPolicy := false,
                  networkPolicy := false, secretsEnabled := false } }

/-- A chart named `nginx` with no default values. -/
def chartNginx : HelmChart :=
  { name := "nginx", repository := "r", version := "1", values := [],
    description := "", url := "" }

/-- User overrides that put a mapping under the `securityContext` key. -/
def userSecurityReqs : VMap :=
  [("securityContext", .vMap [("foo", .vStr "bar")])]

/-- Builds a registry search result for a package name. -/
def searchChart (n : String) : ChartSearchResult :=
  { id := n, name := n, repository := "repo-" ++ n, version := "1.0.0",
    description := "d", url := "u" }

/-- A node whose status-conditions list is empty. -/
def noCondNode : K8sNode :=
  { name := "n0", labels := [], annotations := [], conditions := [],
    capacityCPU := some 4, allocatableCPU := some 3,
    capacityMemory := some 8, allocatableMemory := some 7,
    capacityStorage := some 100, allocatableStorage := some 90 }

/-- A node whose last status condition is `Ready`. -/
def readyNode : K8sNode :=
  { name := "n1", labels := [], annotations := [],
    conditions := [⟨"MemoryPressure"⟩, ⟨"Ready"⟩],
    capacityCPU := some 4, allocatableCPU := some 3,
    capacityMemory := some 8, allocatableMemory := some 7,
    capacityStorage := some 100, allocatableStorage := some 90 }

/-- A fully reachable, fully permitted cluster whose single node has no
status conditions. -/
def noCondApi : K8sApi :=
  { connect := .ok (), serverVersion := .ok "v1.30.2",
    nodesList := .ok [noCondNode],
    storageClassesList := .ok ["standard"], namespacesList := .ok ["default"],
    kubeSystemNamespace := .ok (), kubeSystemSecrets := .ok [],
    ingressesList := .ok [], servicesList := .ok [],
    persistentVolumesList := .ok [],
    clusterRolesCap := .ok (), networkPoliciesCap := .ok (),
    clusterRolesSec := .ok (), podSecurityPoliciesSec := .ok (),
    networkPoliciesSec := .ok (), allSecretsSec := .ok (),
    networkPoliciesDetect := .ok () }

/-- A cluster where everything works except that listing nodes is
denied. -/
def nodesDeniedApi : K8sApi :=
  { connect := .ok (), serverVersion := .ok "v1.30.2",
    nodesList := .error "forbidden",
    storageClassesList := .ok ["standard"], namespacesList := .ok ["default"],
    kubeSystemNamespace := .ok (), kubeSystemSecrets := .ok [],
    ingressesList := .ok [], servicesList := .ok [],
    persistentVolumesList := .ok [],
    clusterRolesCap := .ok (), networkPoliciesCap := .ok (),
    clusterRolesSec := .ok (), podSecurityPoliciesSec := .ok (),
    networkPoliciesSec := .ok (), allSecretsSec := .ok (),
    networkPoliciesDetect := .ok () }

/-- An executor environment where helm is missing and the bootstrap
install fails; nothing else ever fails. -/
def envBootFail : ExecEnv :=
  { helmAvailable := false, helmInstallOk := false,
    repoAdd := fun _ => none, commandRun := fun _ => none, chartInstall := fun _ => none }

/-- An executor environment with helm present where exactly the raw
command `"bad"` fails. -/
def envBadCmd : ExecEnv :=
  { helmAvailable := true, helmInstallOk := true,
    repoAdd := fun _ => none,
    commandRun := fun c => if c = "bad" then some "exit status 1" else none,
    chartInstall := fun _ => none }

/-- Builds a chart-less raw-command step. -/
def stepCmd (i : Nat) (c : String) : DeploymentStep :=
  { id := "step-" ++ toString i, name := "run", description := "d",
    chart := none, command := c, status := "pending" }

/-- Builds a plan around the given steps. -/
def planOf (steps : List DeploymentStep) : DeploymentPlan :=
  { id := "p", name := "n", description := "d", charts := [],
    steps := steps, estimatedTime := "",
    resourceImpact := { cpu := "", memory := "", storage := "", nodes := 1 },
    prerequisites := [], risks := [] }

/-- A one-step plan running an innocuous command. -/
def planOneStep : DeploymentPlan := planOf [stepCmd 1 "echo hi"]

/-- A three-step plan whose second step fails under `envBadCmd`. -/
def planSecondFails : DeploymentPlan :=
  planOf [stepCmd 1 "echo a", stepCmd 2 "bad", stepCmd 3 "echo c"]

/-! ## Lemmas about map assignment and merging -/

theorem lookupKey_setKey_self (m : VMap) (k : String) (v : GoValue) :
    lookupKey (setKey m k v) k = some v := by
  induction m with
  | nil => simp [setKey, lookupKey]
  | cons p rest ih =>
      obtain ⟨k', v'⟩ := p
      by_cases h : k' = k
      · simp [setKey, h, lookupKey]
      · simp [setKey, h, lookupKey, ih]

theorem lookupKey_setKey_ne (m : VMap) (k' k : String) (v : GoValue) (h : k' ≠ k) :
    lookupKey (setKey m k' v) k = lookupKey m k := by
  induction m with
  | nil => simp [setKey, lookupKey, h]
  | cons p rest ih =>
      obtain ⟨k1, v1⟩ := p
      by_cases h1 : k1 = k'
      · subst h1
        simp [setKey, lookupKey, h]
      · by_cases h2 : k1 = k
        · subst h2
          simp [setKey, h1, lookupKey, Ne.symm h]
        · simp [setKey, h1, lookupKey, h2, ih]

/-- Merging a source that does not bind `k` leaves the binding of `k`
unchanged. -/
theorem lookupKey_mergeValues_notin (source : VMap) (k : String)
    (h : ∀ p ∈ source, p.1 ≠ k) (target : VMap) :
    lookupKey (mergeValues target source) k = lookupKey target k := by
  induction source generalizing target with
  | nil => simp [mergeValues]
  | cons p rest ih =>
      obtain ⟨key, value⟩ := p
      have hk : key ≠ k := h (key, value) (by simp)
      have hrest : ∀ p ∈ rest, p.1 ≠ k := fun p hp => h p (by simp [hp])
      cases value with
      | vMap sm =>
          cases hl : lookupKey target key with
          | none =>
              rw [mergeValues, hl, ih hrest, lookupKey_setKey_ne _ _ _ _ hk]
          | some tv =>
              cases tv with
              | vMap tm =>
                  rw [mergeValues, hl, ih hrest, lookupKey_setKey_ne _ _ _ _ hk]
              | vStr s => rw [mergeValues, hl, ih hrest, lookupKey_setKey_ne _ _ _ _ hk]
              | vInt n => rw [mergeValues, hl, ih hrest, lookupKey_setKey_ne _ _ _ _ hk]
              | vBool b => rw [mergeValues, hl, ih hrest, lookupKey_setKey_ne _ _ _ _ hk]
      | vStr s =>
          rw [mergeValues, ih hrest, lookupKey_setKey_ne _ _ _ _ hk]
          intro sm hsm
          cases hsm
      | vInt n =>
          rw [mergeValues, ih hrest, lookupKey_setKey_ne _ _ _ _ hk]
          intro sm hsm
          cases hsm
      | vBool b =>
          rw [mergeValues, ih hrest, lookupKey_setKey_ne _ _ _ _ hk]
          intro sm hsm
          cases hsm

/-- When the source binds `k` to a value that does not map-merge with
the target (the value is not a map, or the target holds no map at `k`),
the source value overwrites outright.  The key-distinctness hypothesis
reflects that a Go map binds each key once. -/
theorem lookupKey_mergeValues_overwrite (source : VMap) (k : String) (v : GoValue)
    (hnd : (source.map Prod.fst).Nodup)
    (hs : lookupKey source k = some v) (target : VMap)
    (hcase : v.isMap = false ∨ optIsMap (lookupKey target k) = false) :
    lookupKey (mergeValues target source) k = some v := by
  induction source generalizing target with
  | nil => simp [lookupKey] at hs
  | cons p rest ih =>
      obtain ⟨key, value⟩ := p
      simp only [List.map_cons, List.nodup_cons, List.mem_map] at hnd
      by_cases hkey : key = k
      · subst hkey
        have hv : value = v := by
          simpa [lookupKey] using hs
        subst hv
        have hnotin : ∀ p ∈ rest, p.1 ≠ key := by
          intro p hp hkey'
          exact hnd.1 ⟨p, hp, hkey'⟩
        cases value with
        | vMap sm =>
            have htarget : optIsMap (lookupKey target key) = false := by
              rcases hcase with h | h
              · simp [GoValue.isMap] at h
              · exact h
            cases hl : lookupKey target key with
            | none =>
                rw [mergeValues, hl, lookupKey_mergeValues_notin rest key hnotin,
                  lookupKey_setKey_self]
            | some tv =>
                cases tv with
                | vMap tm => rw [hl] at htarget; simp [optIsMap, GoValue.isMap] at htarget
                | vStr s =>
                    rw [mergeValues, hl, lookupKey_mergeValues_notin rest key hnotin,
                      lookupKey_setKey_self]
                | vInt n =>
                    rw [mergeValues, hl, lookupKey_mergeValues_notin rest key hnotin,
                      lookupKey_setKey_self]
                | vBool b =>
                    rw [mergeValues, hl, lookupKey_mergeValues_notin rest key hnotin,
                      lookupKey_setKey_self]
        | vStr s =>
            rw [mergeValues, lookupKey_mergeValues_notin rest key hnotin,
              lookupKey_setKey_self]
            intro sm hsm
            cases hsm
        | vInt n =>
            rw [mergeValues, lookupKey_mergeValues_notin rest key hnotin,
              lookupKey_setKey_self]
            intro sm hsm
            cases hsm
        | vBool b =>
            rw [mergeValues, lookupKey_mergeValues_notin rest key hnotin,
              lookupKey_setKey_self]
            intro sm hsm
            cases hsm
      · have hs' : lookupKey rest k = some v := by
          simpa [lookupKey, hkey] using hs
        have hcase' : ∀ target' : VMap, lookupKey target' k = lookupKey target k →
            v.isMap = false ∨ optIsMap (lookupKey target' k) = false := by
          intro target' he
          rcases hcase with h | h
          · exact Or.inl h
          · exact Or.inr (he ▸ h)
        cases value with
        | vMap sm =>
            cases hl : lookupKey target key with
            | none =>
                rw [mergeValues, hl]
                exact ih hnd.2 hs' _
                  (hcase' _ (lookupKey_setKey_ne _ _ _ _ hkey))
            | some tv =>
                cases tv with
                | vMap tm =>
                    rw [mergeValues, hl]
                    exact ih hnd.2 hs' _
                      (hcase' _ (lookupKey_setKey_ne _ _ _ _ hkey))
                | vStr s =>
                    rw [mergeValues, hl]
                    exact ih hnd.2 hs' _
                      (hcase' _ (lookupKey_setKey_ne _ _ _ _ hkey))
                | vInt n =>
                    rw [mergeValues, hl]
                    exact ih hnd.2 hs' _
                      (hcase' _ (lookupKey_setKey_ne _ _ _ _ hkey))
                | vBool b =>
                    rw [mergeValues, hl]
                    exact ih hnd.2 hs' _
                      (hcase' _ (lookupKey_setKey_ne _ _ _ _ hkey))
        | vStr s =>
            rw [mergeValues]
            · exact ih hnd.2 hs' _ (hcase' _ (lookupKey_setKey_ne _ _ _ _ hkey))
            · intro sm hsm; cases hsm
        | vInt n =>
            rw [mergeValues]
            · exact ih hnd.2 hs' _ (hcase' _ (lookupKey_setKey_ne _ _ _ _ hkey))
            · intro sm hsm; cases hsm
        | vBool b =>
            rw [mergeValues]
            · exact ih hnd.2 hs' _ (hcase' _ (lookupKey_setKey_ne _ _ _ _ hkey))
            · intro sm hsm; cases hsm

/-- When the source and the target both hold maps at `k`, the result at
`k` is the recursive merge of the two maps. -/
theorem lookupKey_mergeValues_mapmerge (source : VMap) (k : String)
    (sm : List (String × GoValue))
    (hnd : (source.map Prod.fst).Nodup)
    (hs : lookupKey source k = some (GoValue.vMap sm))
    (target : VMap) (tm : List (String × GoValue))
    (ht : lookupKey target k = some (GoValue.vMap tm)) :
    lookupKey (mergeValues target source) k = some (GoValue.vMap (mergeValues tm sm)) := by
  induction source generalizing target with
  | nil => simp [lookupKey] at hs
  | cons p rest ih =>
      obtain ⟨key, value⟩ := p
      simp only [List.map_cons, List.nodup_cons, List.mem_map] at hnd
      by_cases hkey : key = k
      · subst hkey
        have hv : value = GoValue.vMap sm := by
          simpa [lookupKey] using hs
        subst hv
        have hnotin : ∀ p ∈ rest, p.1 ≠ key := by
          intro p hp hkey'
          exact hnd.1 ⟨p, hp, hkey'⟩
        rw [mergeValues, ht, lookupKey_mergeValues_notin rest key hnotin,
          lookupKey_setKey_self]
      · have hs' : lookupKey rest k = some (GoValue.vMap sm) := by
          simpa [lookupKey, hkey] using hs
        cases value with
        | vMap sm' =>
            cases hl : lookupKey target key with
            | none =>
                rw [mergeValues, hl]
                exact ih hnd.2 hs' _ ((lookupKey_setKey_ne _ _ _ _ hkey).trans ht)
            | some tv =>
                cases tv with
                | vMap tm' =>
                    rw [mergeValues, hl]
                    exact ih hnd.2 hs' _ ((lookupKey_setKey_ne _ _ _ _ hkey).trans ht)
                | vStr s =>
                    rw [mergeValues, hl]
                    exact ih hnd.2 hs' _ ((lookupKey_setKey_ne _ _ _ _ hkey).trans ht)
                | vInt n =>
                    rw [mergeValues, hl]
                    exact ih hnd.2 hs' _ ((lookupKey_setKey_ne _ _ _ _ hkey).trans ht)
                | vBool b =>
                    rw [mergeValues, hl]
                    exact ih hnd.2 hs' _ ((lookupKey_setKey_ne _ _ _ _ hkey).trans ht)
        | vStr s =>
            rw [mergeValues]
            · exact ih hnd.2 hs' _ ((lookupKey_setKey_ne _ _ _ _ hkey).trans ht)
            · intro sm' hsm; cases hsm
        | vInt n =>
            rw [mergeValues]
            · exact ih hnd.2 hs' _ ((lookupKey_setKey_ne _ _ _ _ hkey).trans ht)
            · intro sm' hsm; cases hsm
        | vBool b =>
            rw [mergeValues]
            · exact ih hnd.2 hs' _ ((lookupKey_setKey_ne _ _ _ _ hkey).trans ht)
            · intro sm' hsm; cases hsm

/-! ## Claim C1: layered value composition and the last layer's keys -/

/-- C1 (amended).  `GenerateValues` composes the four layers in the
order chart defaults, cluster customization, user overrides,
best-practice defaults, and `Merge` recurses on maps and otherwise
overwrites.  Consequently, for a key bound by the last-applied layer
(`source`): when the two values at that key are not both maps the
layer's value wins outright, and when both are maps the result is their
recursive merge (in which sub-keys of the earlier layers that the last
layer does not set survive). -/
theorem generateValues_last_layer_key (target source : VMap) (k : String) (v : GoValue)
    (hnd : (source.map Prod.fst).Nodup) (hs : lookupKey source k = some v) :
    (∀ chart cluster reqs,
        generateValues chart cluster reqs =
          applyBestPractices
            (applyUserRequirements (customizeForCluster chart.values cluster) reqs)
            chart.name) ∧
    (v.isMap = false ∨ optIsMap (lookupKey target k) = false →
        lookupKey (mergeValues target source) k = some v) ∧
    (∀ sm tm, v = GoValue.vMap sm → lookupKey target k = some (GoValue.vMap tm) →
        lookupKey (mergeValues target source) k = some (GoValue.vMap (mergeValues tm sm))) := by
  refine ⟨fun _ _ _ => rfl, ?_, ?_⟩
  · intro hcase
    exact lookupKey_mergeValues_overwrite source k v hnd hs target hcase
  · intro sm tm hv ht
    subst hv
    exact lookupKey_mergeValues_mapmerge source k sm hnd hs target tm ht

/-- Witness for C1: merging the best-practice security layer into a
document that does not bind `securityContext` installs the layer's value
verbatim. -/
theorem generateValues_last_layer_key_witness :
    lookupKey (mergeValues [("a", GoValue.vStr "x")] securityBestPractices) "securityContext"
      = some (GoValue.vMap [("runAsNonRoot", GoValue.vBool true),
                            ("runAsUser", GoValue.vInt 1000)]) :=
  (generateValues_last_layer_key [("a", GoValue.vStr "x")] securityBestPractices
      "securityContext" _ (by simp [securityBestPractices]) rfl).2.1 (Or.inr rfl)

/-- Counterexample to C1 as stated: with chart defaults empty, no
cluster-derived customization, and the user override
`securityContext = map(foo = bar)`, the key `securityContext` is present
in both the user overrides and the best-practice defaults, yet the final
composed value is not the best-practice value — the user's `foo`
sub-key survives the recursive merge. -/
theorem generateValues_user_subkey_survives :
    lookupKey (generateValues chartNginx emptyAnalysis (some userSecurityReqs))
        "securityContext"
      ≠ some (GoValue.vMap [("runAsNonRoot", GoValue.vBool true),
                            ("runAsUser", GoValue.vInt 1000)]) := by
  have hev : lookupKey (generateValues chartNginx emptyAnalysis (some userSecurityReqs))
      "securityContext"
      = some (GoValue.vMap [("foo", GoValue.vStr "bar"),
                            ("runAsNonRoot", GoValue.vBool true),
                            ("runAsUser", GoValue.vInt 1000)]) := by
    simp [generateValues, applyBestPractices, applyUserRequirements, customizeForCluster,
      chartNginx, emptyAnalysis, userSecurityReqs, securityBestPractices,
      monitoringBestPractices, mergeValues, lookupKey, setKey]
    split <;> rfl
  rw [hev]
  simp

/-! ## Claim C7: per-node resource arithmetic -/

/-- C7.  For a node resource, used is capacity minus allocatable;
percentage is allocatable/capacity × 100 in integer division, and is
exactly 0 when capacity is 0; under allocatable ≤ capacity, used is
non-negative. -/
theorem analyzeResource_used_percentage (capacity allocatable : Int)
    (h : allocatable ≤ capacity) :
    (analyzeResource (some capacity) (some allocatable)).used = capacity - allocatable ∧
    (capacity = 0 → (analyzeResource (some capacity) (some allocatable)).percentage = 0) ∧
    (0 < capacity →
      (analyzeResource (some capacity) (some allocatable)).percentage
        = Int.tdiv (allocatable * 100) capacity) ∧
    0 ≤ (analyzeResource (some capacity) (some allocatable)).used := by
  refine ⟨rfl, ?_, ?_, ?_⟩
  · intro h0
    simp [analyzeResource, h0]
  · intro h0
    simp [analyzeResource, h0]
  · simp only [analyzeResource]
    omega

/-- Witness for C7 at a node with capacity 4, allocatable 3, and at a
node with capacity 0. -/
theorem analyzeResource_used_percentage_witness :
    (analyzeResource (some 4) (some 3)).used = 4 - 3 ∧
    0 ≤ (analyzeResource (some 4) (some 3)).used ∧
    (analyzeResource (some 0) (some 0)).percentage = 0 :=
  ⟨(analyzeResource_used_percentage 4 3 (by decide)).1,
   (analyzeResource_used_percentage 4 3 (by decide)).2.2.2,
   (analyzeResource_used_percentage 0 0 (by decide)).2.1 rfl⟩

/-! ## Claim C4: plans from fewer than three search results -/

/-- C4 (code bug).  With two search results, `CreateDeploymentPlan`
evaluates the slice expression `charts[:3]`, which reads past the
decoded result instead of yielding a two-step plan: the embedding
records this as a panic. -/
theorem createDeploymentPlan_two_results_panics :
    createDeploymentPlan "monitoring" [searchChart "loki", searchChart "tempo"]
        emptyAnalysis 0 = Outcome.panics ∧
    ([searchChart "loki", searchChart "tempo"] : List ChartSearchResult).length = 2 :=
  ⟨rfl, rfl⟩

/-! ## Claim C10: node status comes from the last condition -/

/-- C10.  Node analysis reports each node's status as the type of the
last entry of its conditions list, provided every node has at least one
condition; on a node with no conditions the indexing is out of bounds
and `AnalyzeCluster` panics. -/
theorem analyzeNodes_last_condition :
    (∀ nodes : List K8sNode, (∀ nd ∈ nodes, nd.conditions ≠ []) →
        (analyzeNodes nodes).map (List.map NodeInfo.status)
          = some (nodes.map (fun nd => (nd.conditions.getLastD ⟨""⟩).condType))) ∧
    analyzeNodes [noCondNode] = none ∧
    analyzeCluster noCondApi = Outcome.panics := by
  refine ⟨?_, rfl, rfl⟩
  intro nodes h
  induction nodes with
  | nil => rfl
  | cons nd rest ih =>
      have hnd : nd.conditions ≠ [] := h nd (by simp)
      have hrest : ∀ x ∈ rest, x.conditions ≠ [] := fun x hx => h x (by simp [hx])
      have ih' := ih hrest
      cases hc : nd.conditions.getLast? with
      | none =>
          exact absurd (List.getLast?_eq_none_iff.mp hc) hnd
      | some c =>
          cases hr : analyzeNodes rest with
          | none => rw [hr] at ih'; cases ih'
          | some infos =>
              rw [hr] at ih'
              simp only [Option.map_some', Option.some.injEq] at ih'
              simp [analyzeNodes, analyzeNode, hc, hr, ih',
                List.getLastD_eq_getLast?, Option.getD]

/-- Witness for C10 on a single node whose last condition is `Ready`. -/
theorem analyzeNodes_last_condition_witness :
    (analyzeNodes [readyNode]).map (List.map NodeInfo.status) = some ["Ready"] :=
  analyzeNodes_last_condition.1 [readyNode] (by simp [readyNode])

/-! ## Claim C3: which discovery failures abort the analysis -/

/-- C3 counterexample: a cluster whose control plane is reachable and
whose version is readable, but where listing nodes is denied, makes
`AnalyzeCluster` fail — so failure is not confined to
connectivity/version errors. -/
theorem analyzeCluster_nodes_denied_fails :
    analyzeCluster nodesDeniedApi = Outcome.error "failed to list nodes: forbidden" ∧
    nodesDeniedApi.serverVersion = Except.ok "v1.30.2" ∧
    nodesDeniedApi.connect = Except.ok () :=
  ⟨rfl, rfl, rfl⟩

set_option maxHeartbeats 2000000 in
/-- The capability record is a per-probe function: each flag depends
only on its own probe's result, and a probe failure only leaves that
flag false. -/
theorem analyzeClusterCapabilities_probe_independent (api : K8sApi) :
    analyzeClusterCapabilities api =
      { helmInstalled :=
          (match api.kubeSystemNamespace, api.kubeSystemSecrets with
           | .ok _, .ok secrets => anyNameHelmOrTiller secrets
           | _, _ => false),
        ingressAvailable :=
          (match api.ingressesList with
           | .ok items => decide (items.length > 0)
           | .error _ => false),
        loadBalancer :=
          (match api.servicesList with
           | .ok types => types.any (· == "LoadBalancer")
           | .error _ => false),
        persistentVolume :=
          (match api.persistentVolumesList with
           | .ok items => decide (items.length > 0)
           | .error _ => false),
        rbacEnabled := okB api.clusterRolesCap,
        networkPolicy := okB api.networkPoliciesCap } := by
  obtain ⟨con, ver, nl, scl, nsl, ksn, kss, ing, svc, pv, crc, npc, crs, psp, nps, asec, npd⟩ := api
  cases ksn <;> cases kss <;> cases ing <;> cases svc <;> cases pv <;>
    cases crc <;> cases npc <;>
      (simp only [analyzeClusterCapabilities, okB]
       repeat' split
       all_goals simp_all
       all_goals (intro x hx hxe; subst hxe; simp_all))

/-- A fully reachable cluster where some capability/security probes are
denied (ingresses, pod-security policies) while the rest succeed. -/
def probeDeniedApi : K8sApi :=
  { connect := .ok (), serverVersion := .ok "v1.30.2",
    nodesList := .ok [readyNode],
    storageClassesList := .ok ["standard"], namespacesList := .ok ["default"],
    kubeSystemNamespace := .ok (), kubeSystemSecrets := .ok [],
    ingressesList := .error "forbidden", servicesList := .ok ["ClusterIP"],
    persistentVolumesList := .ok ["pv0"],
    clusterRolesCap := .ok (), networkPoliciesCap := .ok (),
    clusterRolesSec := .ok (),
    podSecurityPoliciesSec := .error "the server could not find the requested resource",
    networkPoliciesSec := .ok (), allSecretsSec := .ok (),
    networkPoliciesDetect := .ok () }

/-- C3 (amended).  The analysis fails when the connection, the server
version, or the node, storage-class or namespace listings fail; once
those five succeed (and every node has a status condition), the analysis
always succeeds, and each capability/security flag is a function of its
own probe alone, a denied probe only leaving that flag false. -/
theorem analyzeCluster_fatal_and_graceful (api : K8sApi) (v : String)
    (nodes : List K8sNode) (scs nss : List String) (infos : List NodeInfo)
    (h1 : api.connect = .ok ()) (h2 : api.serverVersion = .ok v)
    (h3 : api.nodesList = .ok nodes) (h4 : api.storageClassesList = .ok scs)
    (h5 : api.namespacesList = .ok nss) (h6 : analyzeNodes nodes = some infos) :
    analyzeCluster api = Outcome.ok
      { clusterName := "analyzed-cluster", version := v, nodes := infos,
        resources := analyzeClusterResources nodes,
        capabilities :=
          { helmInstalled :=
              (match api.kubeSystemNamespace, api.kubeSystemSecrets with
               | .ok _, .ok secrets => anyNameHelmOrTiller secrets
               | _, _ => false),
            ingressAvailable :=
              (match api.ingressesList with
               | .ok items => decide (items.length > 0)
               | .error _ => false),
            loadBalancer :=
              (match api.servicesList with
               | .ok types => types.any (· == "LoadBalancer")
               | .error _ => false),
            persistentVolume :=
              (match api.persistentVolumesList with
               | .ok items => decide (items.length > 0)
               | .error _ => false),
            rbacEnabled := okB api.clusterRolesCap,
            networkPolicy := okB api.networkPoliciesCap },
        storageClasses := scs,
        networkPolicy := if okB api.networkPoliciesDetect then "supported" else "not-supported",
        security :=
          { rbacEnabled := okB api.clusterRolesSec,
            podSecurityPolicy := okB api.podSecurityPoliciesSec,
            networkPolicy := okB api.networkPoliciesSec,
            secretsEnabled := okB api.allSecretsSec } } := by
  simp only [analyzeCluster, h1, h2, h3, h4, h5, h6]
  rw [analyzeClusterCapabilities_probe_independent]
  rfl

/-- Witness for C3 (amended): with the five fatal calls succeeding, the
analysis succeeds even though the ingress and pod-security-policy probes
are denied, and exactly those flags read false. -/
theorem analyzeCluster_fatal_and_graceful_witness :
    analyzeCluster probeDeniedApi = Outcome.ok
      { clusterName := "analyzed-cluster", version := "v1.30.2",
        nodes := (analyzeNodes [readyNode]).getD [],
        resources := analyzeClusterResources [readyNode],
        capabilities := { helmInstalled := false, ingressAvailable := false,
                          loadBalancer := false, persistentVolume := true,
                          rbacEnabled := true, networkPolicy := true },
        storageClasses := ["standard"], networkPolicy := "supported",
        security := { rbacEnabled := true, podSecurityPolicy := false,
                      networkPolicy := true, secretsEnabled := true } } := by
  have h := analyzeCluster_fatal_and_graceful probeDeniedApi "v1.30.2" [readyNode]
    ["standard"] ["default"] ((analyzeNodes [readyNode]).getD []) rfl rfl rfl rfl rfl rfl
  simpa [probeDeniedApi, okB, anyNameHelmOrTiller] using h

/-! ## Claim C6: plans from three or more search results -/

/-- The step list built by the plan loop mirrors the chart list: one
step per chart, named `Deploy <name>`, bound to that chart, in order. -/
theorem planStepsAux_names (cluster : ClusterAnalysis) :
    ∀ (l : List ChartSearchResult) (i : Nat),
      ((planStepsAux cluster i l).2.map DeploymentStep.name
          = l.map (fun c => "Deploy " ++ c.name)) ∧
      ((planStepsAux cluster i l).2.map (fun s => s.chart.map HelmChart.name)
          = l.map (fun c => some c.name)) ∧
      ((planStepsAux cluster i l).2.length = l.length) := by
  intro l
  induction l with
  | nil => intro i; simp [planStepsAux]
  | cons c rest ih =>
      intro i
      obtain ⟨h1, h2, h3⟩ := ih (i + 1)
      cases hps : planStepsAux cluster (i + 1) rest with
      | mk cs ss =>
          rw [hps] at h1 h2 h3
          simp [planStepsAux, hps, h1, h2, h3, chartFromSearch]

/-- C6.  With at least three search results, the plan has exactly three
steps, bound to the first three results in registry order, each named
from its package. -/
theorem createDeploymentPlan_three_steps (stack : String) (charts : List ChartSearchResult)
    (cluster : ClusterAnalysis) (now : Nat) (h : 3 ≤ charts.length) :
    ((createDeploymentPlan stack charts cluster now).toOption.map (fun p => p.steps.length)
        = some 3) ∧
    ((createDeploymentPlan stack charts cluster now).toOption.map
        (fun p => p.steps.map (fun s => s.chart.map HelmChart.name))
        = some ((charts.take 3).map (fun c => some c.name))) ∧
    ((createDeploymentPlan stack charts cluster now).toOption.map
        (fun p => p.steps.map DeploymentStep.name)
        = some ((charts.take 3).map (fun c => "Deploy " ++ c.name))) := by
  have hne : ¬ charts.length = 0 := by omega
  have hslice : goSliceTo charts 3 = some (charts.take 3) := by
    simp [goSliceTo, h]
  obtain ⟨h1, h2, h3⟩ := planStepsAux_names cluster (charts.take 3) 0
  cases hps : planStepsAux cluster 0 (charts.take 3) with
  | mk cs ss =>
      rw [hps] at h1 h2 h3
      refine ⟨?_, ?_, ?_⟩ <;>
        simp [createDeploymentPlan, hne, hslice, hps, Outcome.toOption, h1, h2, h3,
          List.length_take]
      all_goals omega

/-- The five concrete search results of the C6 witness. -/
def charts5 : List ChartSearchResult :=
  [searchChart "kube-prometheus-stack", searchChart "prometheus",
   searchChart "prometheus-adapter", searchChart "grafana", searchChart "loki"]

/-- Witness for C6: five search results give a three-step plan in
registry order. -/
theorem createDeploymentPlan_three_steps_witness :
    ((createDeploymentPlan "prometheus" charts5 emptyAnalysis 7).toOption.map
        (fun p => p.steps.map DeploymentStep.name)
        = some ((charts5.take 3).map (fun c => "Deploy " ++ c.name))) :=
  (createDeploymentPlan_three_steps "prometheus" charts5 emptyAnalysis 7 (by decide)).2.2

/-! ## Claim C2: fail-fast execution -/

/-- The step loop on the first failing outcome: everything before it
completed, the failing step failed, everything after it pending, the
loop failed, and exactly the steps up to the failure were invoked. -/
theorem runSteps_first_fail (env : ExecEnv) :
    ∀ (steps : List DeploymentStep) (i k : Nat) (e : String),
      (steps.map (stepOutcome env))[k]? = some (some e) →
      (∀ j, j < k → (steps.map (stepOutcome env))[j]? = some none) →
      (runSteps env i steps).status = "failed" ∧
      ((runSteps env i steps).steps.map StepExecution.status)[k]? = some "failed" ∧
      (∀ j, j < k →
        ((runSteps env i steps).steps.map StepExecution.status)[j]? = some "completed") ∧
      (∀ j, k < j → j < steps.length →
        ((runSteps env i steps).steps.map StepExecution.status)[j]? = some "pending") ∧
      (runSteps env i steps).invoked = List.range' i (k + 1) := by
  intro steps
  induction steps with
  | nil =>
      intro i k e hk _
      simp at hk
  | cons s rest ih =>
      intro i k e hk hfirst
      cases hes : executeStep env s with
      | mk acts res =>
        have hout : stepOutcome env s = res := by simp [stepOutcome, hes]
        cases k with
        | zero =>
            have h0 : res = some e := by
              rw [← hout]
              simpa using hk
            subst h0
            refine ⟨by simp [runSteps, hes], by simp [runSteps, hes], ?_, ?_, ?_⟩
            · intro j hj
              omega
            · intro j hj1 hj2
              cases j with
              | zero => omega
              | succ j' =>
                  simp at hj2
                  simp [runSteps, hes, List.getElem?_map, List.map_map,
                    List.getElem?_eq_getElem, hj2]
            · simp [runSteps, hes, List.range']
        | succ k' =>
            have h0 : res = none := by
              rw [← hout]
              simpa using hfirst 0 (Nat.succ_pos k')
            subst h0
            obtain ⟨g1, g2, g3, g4, g5⟩ := ih (i + 1) k' e (by simpa using hk)
              (fun j hj => by simpa using hfirst (j + 1) (by omega))
            refine ⟨by simp [runSteps, hes, g1], by simp [runSteps, hes, g2], ?_, ?_, ?_⟩
            · intro j hj
              cases j with
              | zero => simp [runSteps, hes]
              | succ j' => simpa [runSteps, hes] using g3 j' (by omega)
            · intro j hj1 hj2
              cases j with
              | zero => omega
              | succ j' =>
                  simp at hj2
                  simpa [runSteps, hes] using g4 j' (by omega) (by omega)
            · simp [runSteps, hes, g5, List.range']

/-- C2.  If step k is the first step whose execution errors, the
execution record marks steps before k completed, step k failed and the
rest pending, the overall status is failed, and exactly steps 0..k were
invoked — none twice, and none of the completed ones uninstalled or
retried (the executor has no uninstall action at all). -/
theorem executeDeployment_fail_fast (env : ExecEnv) (plan : DeploymentPlan) (k : Nat)
    (e : String)
    (hk : (plan.steps.map (stepOutcome env))[k]? = some (some e))
    (hfirst : ∀ j, j < k → (plan.steps.map (stepOutcome env))[j]? = some none) :
    (executeDeployment env plan 0).1.status = "failed" ∧
    (((executeDeployment env plan 0).1.steps.map StepExecution.status)[k]? = some "failed") ∧
    (∀ j, j < k →
      ((executeDeployment env plan 0).1.steps.map StepExecution.status)[j]?
        = some "completed") ∧
    (∀ j, k < j → j < plan.steps.length →
      ((executeDeployment env plan 0).1.steps.map StepExecution.status)[j]?
        = some "pending") ∧
    (executeDeployment env plan 0).2.2 = List.range (k + 1) := by
  obtain ⟨h1, h2, h3, h4, h5⟩ := runSteps_first_fail env plan.steps 0 k e hk hfirst
  exact ⟨h1, h2, h3, h4, by rw [List.range_eq_range']; exact h5⟩

/-- Witness for C2 on a three-step plan whose second step fails. -/
theorem executeDeployment_fail_fast_witness :
    (executeDeployment envBadCmd planSecondFails 0).1.status = "failed" ∧
    ((executeDeployment envBadCmd planSecondFails 0).1.steps.map StepExecution.status)[1]?
      = some "failed" ∧
    ((executeDeployment envBadCmd planSecondFails 0).1.steps.map StepExecution.status)[0]?
      = some "completed" ∧
    ((executeDeployment envBadCmd planSecondFails 0).1.steps.map StepExecution.status)[2]?
      = some "pending" ∧
    (executeDeployment envBadCmd planSecondFails 0).2.2 = List.range 2 := by
  obtain ⟨h1, h2, h3, h4, h5⟩ := executeDeployment_fail_fast envBadCmd planSecondFails 1
    "command execution failed: exit status 1" rfl (by decide)
  exact ⟨h1, h2, h3 0 (by omega), h4 2 (by omega) (by decide), h5⟩

/-! ## Claim C5: bootstrap failure -/

/-- A two-step plan of innocuous commands. -/
def planTwoSteps : DeploymentPlan := planOf [stepCmd 1 "echo a", stepCmd 2 "echo b"]

/-- Counterexample to C5 as stated: with helm missing and the bootstrap
install failing, the first step does leave the pending state — it is
marked failed — so the execution does not abort before any step has
run. -/
theorem executeDeployment_bootstrap_step_fails :
    ((executeDeployment envBootFail planOneStep 0).1.steps.map StepExecution.status)
      = ["failed"] ∧
    envBootFail.helmAvailable = false ∧
    envBootFail.helmInstallOk = false ∧
    ("failed" : String) ≠ "pending" :=
  ⟨rfl, rfl, rfl, by decide⟩

/-- C5 (amended).  The helm check (with a one-shot bootstrap attempt)
runs at the start of every step's execution, not once before the plan;
when it fails on the first step, no raw command and no chart install is
ever invoked (the only actions are the path lookup and the bootstrap
attempt), the first step is marked failed, the remaining steps stay
pending, and the execution is failed. -/
theorem map_status_pending_records (l : List DeploymentStep) :
    List.map (StepExecution.status ∘ fun s =>
        ({ stepID := s.id, status := "pending", error := "" } : StepExecution)) l
      = List.replicate l.length "pending" := by
  induction l <;> simp_all [List.replicate_succ]

theorem executeDeployment_bootstrap_per_step (env : ExecEnv) (plan : DeploymentPlan)
    (s : DeploymentStep) (rest : List DeploymentStep)
    (hba : env.helmAvailable = false) (hbi : env.helmInstallOk = false)
    (hsteps : plan.steps = s :: rest) :
    (executeDeployment env plan 0).1.status = "failed" ∧
    (executeDeployment env plan 0).1.steps.map StepExecution.status
      = "failed" :: rest.map (fun _ => "pending") ∧
    (executeDeployment env plan 0).2.1
      = [(0, ExecAction.lookPathHelm), (0, ExecAction.installHelmTool)] := by
  have hes : executeStep env s
      = ([ExecAction.lookPathHelm, ExecAction.installHelmTool],
         some "helm not available: failed to install helm") := by
    simp [executeStep, ensureHelmInstalled, hba, hbi]
  refine ⟨?_, ?_, ?_⟩ <;>
    simp [executeDeployment, hsteps, runSteps, hes, map_status_pending_records]

/-- Witness for C5 (amended) on a two-step plan. -/
theorem executeDeployment_bootstrap_per_step_witness :
    (executeDeployment envBootFail planTwoSteps 0).1.status = "failed" ∧
    (executeDeployment envBootFail planTwoSteps 0).1.steps.map StepExecution.status
      = "failed" :: [stepCmd 2 "echo b"].map (fun _ => "pending") ∧
    (executeDeployment envBootFail planTwoSteps 0).2.1
      = [(0, ExecAction.lookPathHelm), (0, ExecAction.installHelmTool)] :=
  executeDeployment_bootstrap_per_step envBootFail planTwoSteps
    (stepCmd 1 "echo a") [stepCmd 2 "echo b"] rfl rfl rfl

/-! ## Claim C9: raw command takes precedence over the chart -/

/-- C9.  When a step's raw command is non-empty, its execution never
invokes the chart install (even with a chart bound) and the only command
it can run is that raw command; conversely a chart install happens only
when the command is empty and a chart is bound. -/
theorem executeStep_command_precedence (env : ExecEnv) (step : DeploymentStep) :
    (step.command ≠ "" →
      (∀ c, ExecAction.installChart c ∉ (executeStep env step).1) ∧
      (∀ c, ExecAction.runCommand c ∈ (executeStep env step).1 → c = step.command)) ∧
    (∀ c, ExecAction.installChart c ∈ (executeStep env step).1 →
      step.command = "" ∧ step.chart.isSome = true) := by
  cases hch : step.chart with
  | none =>
      by_cases hha : env.helmAvailable <;> by_cases hhi : env.helmInstallOk <;>
        by_cases hcmd : step.command = "" <;>
          simp [executeStep, ensureHelmInstalled, hha, hhi, hch, hcmd]
  | some chart =>
      cases hra : env.repoAdd chart.repository with
      | none =>
          by_cases hha : env.helmAvailable <;> by_cases hhi : env.helmInstallOk <;>
            by_cases hcmd : step.command = "" <;>
              simp [executeStep, ensureHelmInstalled, hha, hhi, hch, hcmd, hra]
      | some e =>
          by_cases hha : env.helmAvailable <;> by_cases hhi : env.helmInstallOk <;>
            by_cases hcmd : step.command = "" <;>
              simp [executeStep, ensureHelmInstalled, hha, hhi, hch, hcmd, hra]

/-- A step bound to a chart that also carries a raw command. -/
def stepBoth : DeploymentStep :=
  { id := "s1", name := "n", description := "d",
    chart := some chartNginx, command := "kubectl apply -f manifest.yaml",
    status := "pending" }

/-- Witness for C9: a step with both a chart and a raw command never
reaches the chart install. -/
theorem executeStep_command_precedence_witness :
    ExecAction.installChart "nginx" ∉ (executeStep envBadCmd stepBoth).1 :=
  ((executeStep_command_precedence envBadCmd stepBoth).1 (by decide)).1 "nginx"

/-! ## Claim C8: monotonic status transitions -/

/-- The statuses the step records end with, per outcome list. -/
def finalStatuses : List (Option String) → List String
  | [] => []
  | some _ :: rest => "failed" :: List.replicate rest.length "pending"
  | none :: rest => "completed" :: finalStatuses rest

/-- The overall status the execution ends with, per outcome list. -/
def finalOverall : List (Option String) → String
  | [] => "completed"
  | some _ :: _ => "failed"
  | none :: rest => finalOverall rest

theorem stepEdge_refl (a : String) : StepEdge a a := Or.inl rfl

theorem forall2_stepEdge_refl : ∀ l : List String, List.Forall₂ StepEdge l l
  | [] => List.Forall₂.nil
  | a :: l => List.Forall₂.cons (stepEdge_refl a) (forall2_stepEdge_refl l)

/-- The step records of the loop end exactly in `finalStatuses`, and the
loop's status is `finalOverall`. -/
theorem runSteps_final_statuses (env : ExecEnv) :
    ∀ (steps : List DeploymentStep) (i : Nat),
      (runSteps env i steps).steps.map StepExecution.status
          = finalStatuses (steps.map (stepOutcome env)) ∧
      (runSteps env i steps).status = finalOverall (steps.map (stepOutcome env)) := by
  intro steps
  induction steps with
  | nil => intro i; simp [runSteps, finalStatuses, finalOverall]
  | cons s rest ih =>
      intro i
      cases hes : executeStep env s with
      | mk acts res =>
          have hout : stepOutcome env s = res := by simp [stepOutcome, hes]
          cases res with
          | some e =>
              simp [runSteps, hes, hout, finalStatuses, finalOverall,
                map_status_pending_records]
          | none =>
              obtain ⟨g1, g2⟩ := ih (i + 1)
              simp [runSteps, hes, hout, finalStatuses, finalOverall, g1, g2]

/-- The mutation trace is never empty. -/
theorem traceAux_ne_nil (done : List String) (outs : List (Option String)) :
    traceAux done outs ≠ [] := by
  cases outs with
  | nil => simp [traceAux]
  | cons o rest => cases o <;> simp [traceAux]

theorem getLast?_cons_of_ne_nil {α : Type} (a : α) (l : List α) (h : l ≠ []) :
    (a :: l).getLast? = l.getLast? := by
  cases l with
  | nil => exact absurd rfl h
  | cons b t => exact List.getLast?_cons_cons

/-- The last snapshot of the mutation trace carries `finalStatuses` and
`finalOverall`. -/
theorem traceAux_getLast (outs : List (Option String)) :
    ∀ done, (traceAux done outs).getLast?
      = some ⟨done ++ finalStatuses outs, finalOverall outs⟩ := by
  induction outs with
  | nil => intro done; simp [traceAux, finalStatuses, finalOverall]
  | cons o rest ih =>
      intro done
      cases o with
      | some e => simp [traceAux, finalStatuses, finalOverall]
      | none =>
          rw [traceAux, getLast?_cons_of_ne_nil _ _ (traceAux_ne_nil _ _), ih]
          simp [finalStatuses, finalOverall]

/-- One loop iteration's transitions are legal, starting from the state
where the finished steps read `done` and the rest are pending. -/
theorem chain_traceAux (outs : List (Option String)) :
    ∀ done,
      List.Chain' SnapshotEdge (traceAux done outs) ∧
      (∀ s ∈ (traceAux done outs).head?,
        SnapshotEdge ⟨done ++ List.replicate outs.length "pending", "running"⟩ s) := by
  induction outs with
  | nil =>
      intro done
      refine ⟨by simp [traceAux], ?_⟩
      intro s hs
      simp [traceAux] at hs
      subst hs
      exact ⟨by simpa using forall2_stepEdge_refl done, Or.inr ⟨rfl, Or.inl rfl⟩⟩
  | cons o rest ih =>
      intro done
      cases o with
      | some e =>
          constructor
          · simp only [traceAux, List.chain'_cons, List.chain'_singleton, and_true]
            exact ⟨List.rel_append (forall2_stepEdge_refl done)
                (List.Forall₂.cons (Or.inr (Or.inr ⟨rfl, Or.inr rfl⟩))
                  (forall2_stepEdge_refl _)),
              Or.inr ⟨rfl, Or.inr rfl⟩⟩
          · intro s hs
            simp only [traceAux, List.head?_cons, Option.mem_some_iff] at hs
            subst hs
            refine ⟨?_, Or.inl rfl⟩
            dsimp only
            simp only [List.length_cons, List.replicate_succ]
            exact List.rel_append (forall2_stepEdge_refl done)
              (List.Forall₂.cons (Or.inr (Or.inl ⟨rfl, rfl⟩)) (forall2_stepEdge_refl _))
      | none =>
          obtain ⟨ihc, ihh⟩ := ih (done ++ ["completed"])
          constructor
          · rw [traceAux, List.chain'_cons']
            refine ⟨?_, ihc⟩
            intro s hs
            cases rest with
            | nil =>
                simp [traceAux] at hs
                subst hs
                refine ⟨?_, Or.inr ⟨rfl, Or.inl rfl⟩⟩
                simpa using List.rel_append (forall2_stepEdge_refl done)
                  (List.Forall₂.cons (Or.inr (Or.inr ⟨rfl, Or.inl rfl⟩)) List.Forall₂.nil)
            | cons o2 rs =>
                cases o2 <;>
                  (simp [traceAux] at hs
                   subst hs
                   refine ⟨?_, Or.inl rfl⟩
                   dsimp only
                   simp only [List.length_cons, List.replicate_succ, List.append_assoc,
                     List.cons_append, List.nil_append]
                   exact List.rel_append (forall2_stepEdge_refl done)
                    (List.Forall₂.cons (Or.inr (Or.inr ⟨rfl, Or.inl rfl⟩))
                      (List.Forall₂.cons (Or.inr (Or.inl ⟨rfl, rfl⟩))
                        (forall2_stepEdge_refl _))))
          · intro s hs
            simp only [traceAux, List.head?_cons, Option.mem_some_iff] at hs
            subst hs
            refine ⟨?_, Or.inl rfl⟩
            dsimp only
            simp only [List.length_cons, List.replicate_succ]
            exact List.rel_append (forall2_stepEdge_refl done)
              (List.Forall₂.cons (Or.inr (Or.inl ⟨rfl, rfl⟩)) (forall2_stepEdge_refl _))

/-- C8.  Along the executor's mutation trace every transition is
forward-only — each step moves along pending → running →
completed/failed and the overall status along running →
completed/failed, never backward — and the trace ends exactly in the
returned execution record's statuses. -/
theorem executionTrace_monotonic (env : ExecEnv) (plan : DeploymentPlan) :
    List.Chain' SnapshotEdge (executionTrace env plan) ∧
    (executionTrace env plan).getLast?
      = some ⟨(executeDeployment env plan 0).1.steps.map StepExecution.status,
              (executeDeployment env plan 0).1.status⟩ := by
  obtain ⟨g1, g2⟩ := runSteps_final_statuses env plan.steps 0
  constructor
  · rw [executionTrace, List.chain'_cons']
    refine ⟨?_, (chain_traceAux (plan.steps.map (stepOutcome env)) []).1⟩
    intro s hs
    have := (chain_traceAux (plan.steps.map (stepOutcome env)) []).2 s
    simp only [List.nil_append, List.length_map] at this ⊢
    exact this hs
  · rw [executionTrace, getLast?_cons_of_ne_nil _ _ (traceAux_ne_nil _ _),
      traceAux_getLast]
    simp [executeDeployment, g1, g2]

end GrafanaAgent
